import Mathlib

/-!
Verification development for the UTL-X conformance-suite runners
(`conformance-suite/lsp/runners/python-runner/lsp-runner.py`,
`conformance-suite/mcp/runners/python-runner/mcp-runner.py`,
`conformance-suite/mcp-server/runners/python-runner/mcp-server-runner.py`).

The Python runners manipulate decoded JSON/YAML data.  We embed that data
model as `PyVal` (the JSON scalars and containers the test suite exercises:
null, bool, int, str, list, dict; floating-point numbers are outside the
modelled subset).  Python dicts are embedded as association lists whose
lookup takes the first binding; real Python dicts never hold duplicate
keys, so this is faithful.
-/

inductive PyVal where
  | none
  | bool (b : Bool)
  | int (n : Int)
  | str (s : String)
  | list (xs : List PyVal)
  | dict (xs : List (String × PyVal))

namespace PyVal

/-- Python `type(v).__name__` for the embedded values. -/
def typeName : PyVal → String
  | .none => "NoneType"
  | .bool _ => "bool"
  | .int _ => "int"
  | .str _ => "str"
  | .list _ => "list"
  | .dict _ => "dict"

end PyVal

/-- First binding of a key in an association list, i.e. Python `d[k]` /
`d.get(k)` for a dict with unique keys. -/
def lookupStr : List (String × PyVal) → String → Option PyVal
  | [], _ => Option.none
  | (k, v) :: rest, key => if k = key then some v else lookupStr rest key

/-- Python `d.get(k)`: the value when present, Python `None` when absent. -/
def pyGet (d : List (String × PyVal)) (key : String) : PyVal :=
  (lookupStr d key).getD .none

/-- Python `k in d` for a dict. -/
def hasKeyStr (d : List (String × PyVal)) (key : String) : Bool :=
  (lookupStr d key).isSome

/-- Keys of the second dict are all present in the first (used by the
embedding of Python `==` on dicts). -/
def keysIncluded (ys xs : List (String × PyVal)) : Bool :=
  ys.all (fun kv => hasKeyStr xs kv.1)

mutual
/-- Python `==` on the embedded values: `True == 1` and `False == 0` hold
(bool is numeric in Python), strings compare by content, lists pointwise,
dicts as finite maps (same keys, equal values). -/
def pyEq : PyVal → PyVal → Bool
  | .none, .none => true
  | .bool a, .bool b => a == b
  | .bool a, .int n => (if a then (1 : Int) else 0) == n
  | .int n, .bool a => n == (if a then (1 : Int) else 0)
  | .int m, .int n => m == n
  | .str s, .str t => s == t
  | .list xs, .list ys => pyEqList xs ys
  | .dict xs, .dict ys => pyEqDictSub xs ys && keysIncluded ys xs
  | _, _ => false
termination_by a _ => sizeOf a

def pyEqList : List PyVal → List PyVal → Bool
  | [], [] => true
  | x :: xs, y :: ys => pyEq x y && pyEqList xs ys
  | _, _ => false
termination_by l _ => sizeOf l

def pyEqDictSub : List (String × PyVal) → List (String × PyVal) → Bool
  | [], _ => true
  | (k, v) :: rest, ys =>
    (match lookupStr ys k with
     | some w => pyEq v w
     | Option.none => false) && pyEqDictSub rest ys
termination_by l _ => sizeOf l
end

/-- Characters Python `str.strip()` removes (the common whitespace set). -/
def pyIsSpace (c : Char) : Bool :=
  c = ' ' || c = '\t' || c = '\n' || c = '\r' || c = '\x0b' || c = '\x0c'

/-- Python `str.strip()` over a character list. -/
def stripChars (cs : List Char) : List Char :=
  ((cs.dropWhile pyIsSpace).reverse.dropWhile pyIsSpace).reverse

/-- Python `str.strip()`. -/
def pyStrip (s : String) : String :=
  String.mk (stripChars s.data)

/-- Python substring test `needle in hay` (contiguous substring; the empty
needle is in every string). -/
def isSubstring (needle hay : List Char) : Bool :=
  match hay with
  | [] => needle.isEmpty
  | _ :: rest => needle.isPrefixOf hay || isSubstring needle rest

/-- Escape one character the way Python `repr` renders it inside a quoted
string literal (`q` is the chosen quote character).  The model covers the
printable-ASCII subset the test suite uses; other characters are kept
verbatim. -/
def reprEscChar (q : Char) (c : Char) : List Char :=
  if c = '\\' then ['\\', '\\']
  else if c = q then ['\\', q]
  else if c = '\n' then ['\\', 'n']
  else if c = '\r' then ['\\', 'r']
  else if c = '\t' then ['\\', 't']
  else [c]

/-- Python `repr` of a string: single quotes, switching to double quotes
when the string holds a single quote but no double quote. -/
def pyReprStr (s : String) : String :=
  let cs := s.data
  let q : Char := if cs.contains '\'' && !cs.contains '"' then '"' else '\''
  String.mk (q :: (cs.map (reprEscChar q)).flatten ++ [q])

/-- Comma-join used by Python container `repr`s. -/
def joinComma (xs : List String) : String :=
  String.intercalate ", " xs

mutual
/-- Python `repr(v)` for the embedded values (printable-ASCII subset for
string escapes). -/
def pyRepr : PyVal → String
  | .none => "None"
  | .bool b => if b then "True" else "False"
  | .int n => toString n
  | .str s => pyReprStr s
  | .list xs => "[" ++ joinComma (pyReprList xs) ++ "]"
  | .dict xs => "\x7b" ++ joinComma (pyReprDict xs) ++ "\x7d"
termination_by v => sizeOf v

def pyReprList : List PyVal → List String
  | [] => []
  | x :: xs => pyRepr x :: pyReprList xs
termination_by l => sizeOf l

def pyReprDict : List (String × PyVal) → List String
  | [] => []
  | (k, v) :: xs => (pyReprStr k ++ ": " ++ pyRepr v) :: pyReprDict xs
termination_by l => sizeOf l
end

/-- Python `str(v)`: strings render as themselves, scalars as `None` /
`True` / `False` / decimal digits, containers via `repr`. -/
def pyStr : PyVal → String
  | .str s => s
  | v => pyRepr v

/-- JSON string escaping as `json.dumps` performs it (printable-ASCII
subset; control characters beyond tab/newline/return kept verbatim). -/
def jsonEscChar (c : Char) : List Char :=
  if c = '\\' then ['\\', '\\']
  else if c = '"' then ['\\', '"']
  else if c = '\n' then ['\\', 'n']
  else if c = '\r' then ['\\', 'r']
  else if c = '\t' then ['\\', 't']
  else [c]

def jsonQuote (s : String) : String :=
  String.mk ('"' :: (s.data.map jsonEscChar).flatten ++ ['"'])

mutual
/-- Python `json.dumps(v)` with its default separators (`", "` and
`": "`) and insertion-order keys. -/
def jsonDumps : PyVal → String
  | .none => "null"
  | .bool b => if b then "true" else "false"
  | .int n => toString n
  | .str s => jsonQuote s
  | .list xs => "[" ++ joinComma (jsonDumpsList xs) ++ "]"
  | .dict xs => "\x7b" ++ joinComma (jsonDumpsDict xs) ++ "\x7d"
termination_by v => sizeOf v

def jsonDumpsList : List PyVal → List String
  | [] => []
  | x :: xs => jsonDumps x :: jsonDumpsList xs
termination_by l => sizeOf l

def jsonDumpsDict : List (String × PyVal) → List String
  | [] => []
  | (k, v) :: xs => (jsonQuote k ++ ": " ++ jsonDumps v) :: jsonDumpsDict xs
termination_by l => sizeOf l
end

/-- Python `s.split(".")` over a character list: `""` splits to `[""]`,
separators at the ends produce empty segments. -/
def splitDotChars : List Char → List (List Char)
  | [] => [[]]
  | '.' :: rest => [] :: splitDotChars rest
  | c :: rest =>
    match splitDotChars rest with
    | g :: gs => (c :: g) :: gs
    | [] => [[c]]

/-- Python `path.split(".")`. -/
def pySplitDot (s : String) : List String :=
  (splitDotChars s.data).map String.mk

namespace LSP

/-! Embedding of `lsp-runner.py`.  `ResponseValidator.validate` returns a
pair `(len(errors) == 0, errors)`; we embed the error list and recover the
boolean as emptiness, which is what every return site of the source
computes. -/

/-- `ResponseValidator._validate_contains(actual, expected_contains, path)`:
the error list the loop in the source accumulates. -/
def validate_contains (actual : PyVal) (expectedContains : PyVal) (path : String) :
    List String :=
  match expectedContains with
  | .list items =>
    match actual with
    | .str s =>
      items.filterMap (fun item =>
        if isSubstring (pyStr item).data s.data then Option.none
        else some (path ++ ": expected to contain " ++ pyRepr item))
    | .list xs =>
      items.filterMap (fun item =>
        if xs.any (fun x => pyEq item x) then Option.none
        else some (path ++ ": expected to contain " ++ pyRepr item))
    | .dict d =>
      let actualStr := jsonDumps (.dict d)
      items.filterMap (fun item =>
        if isSubstring (pyStr item).data actualStr.data then Option.none
        else some (path ++ ": expected to contain " ++ pyRepr item))
    | other => [path ++ ": cannot check 'contains' on " ++ other.typeName]
  | _ => [path ++ ": 'contains' must be an array"]

mutual
/-- `ResponseValidator.validate(actual, expected, path)`: the accumulated
error list.  Branch order follows the source: `expected is None` first,
then dict patterns (with the `contains` key checked before the
`isinstance(actual, dict)` test), then list patterns (exact length,
positional), then primitive equality. -/
def validate (actual expected : PyVal) (path : String) : List String :=
  match expected with
  | .none =>
    match actual with
    | .none => []
    | other => [path ++ ": expected null, got " ++ other.typeName]
  | .dict pats =>
    match lookupStr pats "contains" with
    | some c => validate_contains actual c path
    | Option.none =>
      match actual with
      | .dict a => validateKeys a pats path
      | other => [path ++ ": expected object, got " ++ other.typeName]
  | .list pats =>
    match actual with
    | .list xs =>
      if xs.length ≠ pats.length then
        [path ++ ": expected " ++ toString pats.length ++ " items, got " ++
          toString xs.length]
      else validateItems xs pats path 0
    | other => [path ++ ": expected array, got " ++ other.typeName]
  | e =>
    if pyEq actual e then []
    else [path ++ ": expected " ++ pyRepr e ++ ", got " ++ pyRepr actual]
termination_by sizeOf expected

/-- The `for key, expected_value in expected.items()` loop of `validate`:
each pattern key is looked up with `actual.get(key)` (missing keys become
Python `None`) and the per-key error lists are concatenated. -/
def validateKeys (a : List (String × PyVal)) (pats : List (String × PyVal))
    (path : String) : List String :=
  match pats with
  | [] => []
  | (k, ev) :: rest =>
    validate (pyGet a k) ev (path ++ "." ++ k) ++ validateKeys a rest path
termination_by sizeOf pats

/-- The positional `for i, (actual_item, expected_item) in
enumerate(zip(actual, expected))` loop of `validate`. -/
def validateItems (xs pats : List PyVal) (path : String) (i : Nat) : List String :=
  match xs, pats with
  | x :: xr, e :: er =>
    validate x e (path ++ "[" ++ toString i ++ "]") ++ validateItems xr er path (i + 1)
  | _, _ => []
termination_by sizeOf pats
end

/-- The pair `ResponseValidator.validate` actually returns. -/
def validateResult (actual expected : PyVal) (path : String) : Bool × List String :=
  let errors := validate actual expected path
  (errors.isEmpty, errors)

end LSP

namespace LSP

/-! Embedding of `TemplateEngine` from `lsp-runner.py`. -/

/-- The field-walking loop shared by the two branches of
`TemplateEngine._resolve_path`: `for part in parts: if isinstance(value,
dict): value = value.get(part) else: return "\x7b\x7b" + path + "\x7d\x7d"`.
A missing key makes `value` the Python `None`; a non-dict intermediate
returns the reconstructed token text. -/
def walkDoc (v : PyVal) (parts : List String) (path : String) : PyVal :=
  match parts with
  | [] => v
  | p :: rest =>
    match v with
    | .dict d => walkDoc (pyGet d p) rest path
    | _ => .str ("\x7b\x7b" ++ path ++ "\x7d\x7d")

/-- `TemplateEngine._resolve_path(path)`: `documents.<name>...` walks a
named document (an unknown name falls through to the final
keep-original return), `variables...` walks the variables dict, anything
else returns the token text rebuilt from the (already stripped) path. -/
def resolve_path (docs vars : List (String × PyVal)) (path : String) : PyVal :=
  match pySplitDot path with
  | "documents" :: docName :: rest =>
    (match lookupStr docs docName with
     | some v => walkDoc v rest path
     | Option.none => .str ("\x7b\x7b" ++ path ++ "\x7d\x7d"))
  | "variables" :: rest => walkDoc (.dict vars) rest path
  | _ => .str ("\x7b\x7b" ++ path ++ "\x7d\x7d")

/-- One attempt of the regex `\x7b\x7b([^\x7d]+)\x7d\x7d` at the current
position: the greedy `[^\x7d]+` run followed by the two closing braces.
`cs` is the text following an opening `\x7b\x7b`. -/
def findToken (cs : List Char) : Option (String × List Char) :=
  match cs.takeWhile (fun c => c ≠ '\x7d'), cs.dropWhile (fun c => c ≠ '\x7d') with
  | [], _ => Option.none
  | tok, '\x7d' :: '\x7d' :: rest => some (String.mk tok, rest)
  | _, _ => Option.none

/-- The left-to-right scan of `re.sub(r'\x7b\x7b([^\x7d]+)\x7d\x7d',
replacer, text)` used by `TemplateEngine._substitute_string`: at a match
the replacer's output (a string) is spliced in, otherwise one character
is copied and the scan moves on.  `res` is the replacer applied to the
captured group.  The fuel argument only drives the recursion; every step
consumes at least one character, so fuel equal to the input length (as
`subChars` passes) never runs out. -/
def subCharsF (res : String → String) : Nat → List Char → List Char
  | _, [] => []
  | 0, cs => cs
  | fuel + 1, '\x7b' :: '\x7b' :: cs =>
    (match findToken cs with
     | some (tok, rest) => (res tok).data ++ subCharsF res fuel rest
     | Option.none => '\x7b' :: subCharsF res fuel ('\x7b' :: cs))
  | fuel + 1, c :: cs => c :: subCharsF res fuel cs

def subChars (res : String → String) (cs : List Char) : List Char :=
  subCharsF res cs.length cs

/-- `TemplateEngine._substitute_string(text)`: every `\x7b\x7bpath\x7d\x7d`
token is replaced by `str(self._resolve_path(path.strip()))`. -/
def substitute_string (docs vars : List (String × PyVal)) (text : String) : String :=
  String.mk (subChars (fun tok => pyStr (resolve_path docs vars (pyStrip tok))) text.data)

mutual
/-- `TemplateEngine.substitute(value)`: recursive substitution through
strings, dicts and lists; other values pass through unchanged. -/
def substitute (docs vars : List (String × PyVal)) : PyVal → PyVal
  | .str s => .str (substitute_string docs vars s)
  | .dict d => .dict (substituteDict docs vars d)
  | .list xs => .list (substituteList docs vars xs)
  | v => v
termination_by v => sizeOf v

def substituteList (docs vars : List (String × PyVal)) : List PyVal → List PyVal
  | [] => []
  | x :: xs => substitute docs vars x :: substituteList docs vars xs
termination_by l => sizeOf l

def substituteDict (docs vars : List (String × PyVal)) :
    List (String × PyVal) → List (String × PyVal)
  | [] => []
  | (k, v) :: xs => (k, substitute docs vars v) :: substituteDict docs vars xs
termination_by l => sizeOf l
end

end LSP

namespace LSP

/-! Embedding of `JsonRpcClient` from `lsp-runner.py`.  The mutable client
state consists of the `request_id` counter, the `pending_responses` dict
(keyed by the `id` value of the incoming message) and the FIFO
`notifications` queue. -/

structure ClientState where
  request_id : Nat
  pending_responses : List (PyVal × PyVal)
  notifications : List PyVal

/-- The freshly constructed client: counter zero, both buffers empty. -/
def initClient : ClientState :=
  ⟨0, [], []⟩

/-- Python dict assignment `d[k] = v` keyed by an arbitrary value
(replace the binding whose key compares `==`, else append). -/
def insertV : List (PyVal × PyVal) → PyVal → PyVal → List (PyVal × PyVal)
  | [], k, v => [(k, v)]
  | (k0, v0) :: rest, k, v =>
    if pyEq k0 k then (k, v) :: rest else (k0, v0) :: insertV rest k v

/-- `JsonRpcClient.send_request`: increments the counter and uses it as the
id of the outgoing request; returns the id used.  The set of
previously-sent request ids after a run of sends is `{1, ..., request_id}`. -/
def send_request (st : ClientState) : Nat × ClientState :=
  (st.request_id + 1, { st with request_id := st.request_id + 1 })

/-- `JsonRpcClient._handle_message(message)`: a message carrying an `id`
key is stored into `pending_responses` under that id (whether or not the
id was ever issued by `send_request`); otherwise a message carrying a
`method` key is appended to the notification queue; a message with
neither key is dropped.  Inbound JSON-RPC messages are JSON objects, so
the argument is the decoded object's bindings. -/
def handle_message (m : List (String × PyVal)) (st : ClientState) : ClientState :=
  match lookupStr m "id" with
  | some i =>
    { st with pending_responses := insertV st.pending_responses i (.dict m) }
  | Option.none =>
    match lookupStr m "method" with
    | some _ => { st with notifications := st.notifications ++ [.dict m] }
    | Option.none => st

/-- `notification.get('method')` for a queued notification. -/
def notifMethod : PyVal → PyVal
  | .dict d => pyGet d "method"
  | _ => .none

/-- The scan loop of `JsonRpcClient.wait_for_notification`, sequentialised
for a fixed queue with no concurrent arrivals: entries are popped in
order; a non-matching entry goes into `collected`; on a match the
function returns at once — the source's `return notification` drops
`collected`, whose put-back loop only runs after a timeout.  On timeout
(queue exhausted) the collected entries are re-queued in their original
relative order. -/
def waitScan (method : String) (collected : List PyVal) :
    List PyVal → Option PyVal × List PyVal
  | [] => (Option.none, collected)
  | n :: rest =>
    if pyEq (notifMethod n) (.str method) then (some n, rest)
    else waitScan method (collected ++ [n]) rest

/-- `JsonRpcClient.wait_for_notification(method)` → the returned
notification (or `none` on timeout) and the queue contents afterwards. -/
def wait_for_notification (method : String) (queue : List PyVal) :
    Option PyVal × List PyVal :=
  waitScan method [] queue

/-! Embedding of `JsonRpcClient._read_message`. -/

/-- Outcome of one `_read_message` call.  The source has no error outcome:
every exception is caught and turned into `None` (`noMessage`), and when
the stream ends before a blank header line the `while True` readline loop
spins forever (`spin`). -/
inductive ReadOutcome where
  | msg (v : PyVal)
  | noMessage
  | spin

/-- Python dict assignment for the string-valued `headers` dict. -/
def headerInsert : List (String × String) → String → String → List (String × String)
  | [], k, v => [(k, v)]
  | (k0, v0) :: rest, k, v =>
    if k0 = k then (k, v) :: rest else (k0, v0) :: headerInsert rest k v

/-- Lookup in the `headers` dict. -/
def lookupS : List (String × String) → String → Option String
  | [], _ => Option.none
  | (k, v) :: rest, key => if k = key then some v else lookupS rest key

/-- `line.split(':', 1)` when the line holds a colon. -/
def splitColon (line : String) : Option (String × String) :=
  match line.data.dropWhile (fun c => c ≠ ':') with
  | ':' :: rest => some (String.mk (line.data.takeWhile (fun c => c ≠ ':')), String.mk rest)
  | _ => Option.none

/-- The header loop of `_read_message`: read lines until a blank line
(`"\r\n"` or `"\n"`), storing stripped `Key: Value` pairs and skipping
colon-free lines.  A finite line list models the stream; exhausting it
without a blank line is the source's unending readline loop (`none`). -/
def parseHeaders : List String → List (String × String) → Option (List (String × String))
  | [], _ => Option.none
  | line :: rest, acc =>
    if line = "\r\n" ∨ line = "\n" then some acc
    else
      match splitColon line with
      | some (k, v) => parseHeaders rest (headerInsert acc (pyStrip k) (pyStrip v))
      | Option.none => parseHeaders rest acc

/-- Python `int(s)` on a header value: optional sign and decimal digits
after stripping whitespace; anything else raises (modelled as `none`). -/
def parseIntPy (s : String) : Option Int :=
  let digitsVal : List Char → Option Nat := fun ds =>
    if ds.isEmpty || !ds.all Char.isDigit then Option.none
    else some (ds.foldl (fun acc c => acc * 10 + (c.toNat - '0'.toNat)) 0)
  match stripChars s.data with
  | '-' :: ds => (digitsVal ds).map (fun n => -(n : Int))
  | '+' :: ds => (digitsVal ds).map (fun n => (n : Int))
  | ds => (digitsVal ds).map (fun n => (n : Int))

/-- `JsonRpcClient._read_message()` over a stream whose header lines are
`lines` and whose remaining bytes are `body`.  `jsonLoads` stands for the
external `json.loads` (a parse failure is an exception the source catches,
returning `None`).  `Content-Length` missing defaults to `0`, and a zero
length returns `None` — the same outcome as "no message".  A negative
declared length is outside the modelled subset (Python would read the
whole stream). -/
def read_message (jsonLoads : String → Option PyVal) (lines : List String)
    (body : String) : ReadOutcome :=
  match parseHeaders lines [] with
  | Option.none => .spin
  | some hs =>
    let clv : Option Int :=
      match lookupS hs "Content-Length" with
      | some v => parseIntPy v
      | Option.none => some 0
    match clv with
    | Option.none => .noMessage
    | some cl =>
      if cl = 0 then .noMessage
      else
        match jsonLoads (String.mk (body.data.take cl.toNat)) with
        | some v => .msg v
        | Option.none => .noMessage

end LSP

/-! A small regular-expression semantics standing in for the Python `re`
library as the runners use it (`re.match` tries the pattern at the start
of the string, `re.search` at every position; both succeed on a partial
match unless the pattern itself is anchored).  The modelled syntax covers
the patterns the runners build: literals, `.`, character classes,
`\d`-style escapes, `+` `*` `?` repetition, and `^` / `$` anchors at the
ends of the pattern.  Multiline/trailing-newline refinements of `$` are
outside the modelled subset. -/

inductive Rx where
  | void
  | eps
  | char (c : Char)
  | cls (ranges : List (Char × Char))
  | dot
  | seq (a b : Rx)
  | alt (a b : Rx)
  | star (a : Rx)

def inRanges (ranges : List (Char × Char)) (x : Char) : Bool :=
  ranges.any (fun r => r.1 ≤ x && x ≤ r.2)

def nullable : Rx → Bool
  | .void => false
  | .eps => true
  | .char _ => false
  | .cls _ => false
  | .dot => false
  | .seq a b => nullable a && nullable b
  | .alt a b => nullable a || nullable b
  | .star _ => true

/-- Brzozowski derivative of a regex by one character. -/
def rxDeriv (r : Rx) (x : Char) : Rx :=
  match r with
  | .void => .void
  | .eps => .void
  | .char c => if x = c then .eps else .void
  | .cls ranges => if inRanges ranges x then .eps else .void
  | .dot => if x = '\n' then .void else .eps
  | .seq a b =>
    if nullable a then .alt (.seq (rxDeriv a x) b) (rxDeriv b x)
    else .seq (rxDeriv a x) b
  | .alt a b => .alt (rxDeriv a x) (rxDeriv b x)
  | .star a => .seq (rxDeriv a x) (.star a)

/-- Does `r` match the whole character list? -/
def rxFullHere (r : Rx) (cs : List Char) : Bool :=
  nullable (cs.foldl rxDeriv r)

/-- Does `r` match some prefix of the character list? -/
def rxMatchHere : Rx → List Char → Bool
  | r, [] => nullable r
  | r, c :: cs => nullable r || rxMatchHere (rxDeriv r c) cs

/-- A compiled pattern: optional `^` anchor, body, optional `$` anchor. -/
structure RxPattern where
  anchoredStart : Bool
  body : Rx
  anchoredEnd : Bool

/-- One match attempt at the current position: with a `$` anchor the body
must consume the rest of the string, otherwise a prefix suffices. -/
def matchAtHere (p : RxPattern) (cs : List Char) : Bool :=
  if p.anchoredEnd then rxFullHere p.body cs else rxMatchHere p.body cs

/-- Python `re.match(p, s)`: one attempt anchored at position 0 (a leading
`^` is vacuous there). -/
def reMatchL (p : RxPattern) (cs : List Char) : Bool :=
  matchAtHere p cs

/-- The position scan of `re.search`. -/
def searchFrom (p : RxPattern) : List Char → Bool
  | [] => matchAtHere p []
  | c :: rest => matchAtHere p (c :: rest) || searchFrom p rest

/-- Python `re.search(p, s)`: an attempt at every position (a leading `^`
restricts it to position 0). -/
def reSearchL (p : RxPattern) (cs : List Char) : Bool :=
  if p.anchoredStart then matchAtHere p cs else searchFrom p cs

/-- Characters the pattern reader treats as self-matching literals. -/
def isRxLit (c : Char) : Bool :=
  c.isAlphanum || c = '-' || c = ':' || c = '_' || c = '/' || c = ' ' ||
    c = ',' || c = '=' || c = '@' || c = '~' || c = '%' || c = '&' ||
    c = ';' || c = '<' || c = '>' || c = '!' || c = '#'

/-- `\d`, `\w`, `\s` and escaped metacharacters. -/
def escAtom (c : Char) : Option Rx :=
  if c = 'd' then some (.cls [('0', '9')])
  else if c = 'w' then some (.cls [('0', '9'), ('a', 'z'), ('A', 'Z'), ('_', '_')])
  else if c = 's' then some (.cls [(' ', ' '), ('\t', '\t'), ('\n', '\n'), ('\r', '\r')])
  else if ['\\', '.', '+', '*', '?', '[', ']', '(', ')', '\x7b', '\x7d', '^', '$', '-', '|', '/'].contains c then
    some (.char c)
  else Option.none

/-- Body of a `[...]` class: ranges and single characters up to `]`. -/
def parseClassItems : Nat → List Char → Option (List (Char × Char) × List Char)
  | 0, _ => Option.none
  | _ + 1, ']' :: rest => some ([], rest)
  | fuel + 1, a :: '-' :: b :: rest =>
    if b = ']' then Option.none
    else (parseClassItems fuel rest).map (fun pr => ((a, b) :: pr.1, pr.2))
  | fuel + 1, a :: rest =>
    (parseClassItems fuel rest).map (fun pr => ((a, a) :: pr.1, pr.2))
  | _, [] => Option.none

/-- Apply a trailing `+` / `*` / `?` to the atom just read. -/
def repApply (a : Rx) : List Char → Rx × List Char
  | '+' :: rest => (.seq a (.star a), rest)
  | '*' :: rest => (.star a, rest)
  | '?' :: rest => (.alt a .eps, rest)
  | rest => (a, rest)

/-- Sequence of atoms (fuel-driven; the callers pass enough fuel for the
whole input).  Unsupported syntax yields `none`. -/
def parseSeqF : Nat → List Char → Option Rx
  | 0, _ => Option.none
  | _ + 1, [] => some .eps
  | fuel + 1, '[' :: rest => do
    let (ranges, r1) ← parseClassItems (rest.length + 1) rest
    let (a, r2) := repApply (Rx.cls ranges) r1
    let t ← parseSeqF fuel r2
    pure (Rx.seq a t)
  | fuel + 1, '\\' :: c :: rest => do
    let a0 ← escAtom c
    let (a, r2) := repApply a0 rest
    let t ← parseSeqF fuel r2
    pure (Rx.seq a t)
  | fuel + 1, '.' :: rest => do
    let (a, r2) := repApply Rx.dot rest
    let t ← parseSeqF fuel r2
    pure (Rx.seq a t)
  | fuel + 1, c :: rest =>
    if isRxLit c then do
      let (a, r2) := repApply (Rx.char c) rest
      let t ← parseSeqF fuel r2
      pure (Rx.seq a t)
    else Option.none

/-- Read a pattern string into an `RxPattern` (anchors only at the two
ends, as in every pattern the runners provide). -/
def parseRx (s : String) : Option RxPattern :=
  let cs := s.data
  let p1 : Bool × List Char :=
    match cs with
    | '^' :: r => (true, r)
    | r => (false, r)
  let p2 : Bool × List Char :=
    match p1.2.getLast? with
    | some '$' => (true, p1.2.dropLast)
    | _ => (false, p1.2)
  (parseSeqF (p2.2.length + 1) p2.2).map (fun b => ⟨p1.1, b, p2.1⟩)

/-- Repeat a regex a fixed number of times (`\x7bn\x7d` counts in the
runner-built patterns). -/
def rxRep (r : Rx) : Nat → Rx
  | 0 => .eps
  | n + 1 => .seq r (rxRep r n)

def rxSeqAll (rs : List Rx) : Rx :=
  rs.foldr Rx.seq .eps

def rxOpt (r : Rx) : Rx := .alt r .eps

def rxPlus (r : Rx) : Rx := .seq r (.star r)

def rxDigit : Rx := .cls [('0', '9')]

/-- The ISO-8601 pattern both runners hard-code:
`^\d\x7b4\x7d-\d\x7b2\x7d-\d\x7b2\x7dT\d\x7b2\x7d:\d\x7b2\x7d:\d\x7b2\x7d(\.\d+)?(Z|[+-]\d\x7b2\x7d:\d\x7b2\x7d)?$`. -/
def isoRxPat : RxPattern :=
  ⟨true,
    rxSeqAll [rxRep rxDigit 4, .char '-', rxRep rxDigit 2, .char '-', rxRep rxDigit 2,
      .char 'T', rxRep rxDigit 2, .char ':', rxRep rxDigit 2, .char ':', rxRep rxDigit 2,
      rxOpt (Rx.seq (.char '.') (rxPlus rxDigit)),
      rxOpt (Rx.alt (.char 'Z')
        (rxSeqAll [Rx.cls [('+', '+'), ('-', '-')], rxRep rxDigit 2, .char ':', rxRep rxDigit 2]))],
    true⟩

def rxHex : Rx := .cls [('0', '9'), ('a', 'f')]

/-- The UUID pattern both runners hard-code:
`^[0-9a-f]\x7b8\x7d-[0-9a-f]\x7b4\x7d-[0-9a-f]\x7b4\x7d-[0-9a-f]\x7b4\x7d-[0-9a-f]\x7b12\x7d$`. -/
def uuidRxPat : RxPattern :=
  ⟨true,
    rxSeqAll [rxRep rxHex 8, .char '-', rxRep rxHex 4, .char '-', rxRep rxHex 4,
      .char '-', rxRep rxHex 4, .char '-', rxRep rxHex 12],
    true⟩

def toLowerChars (cs : List Char) : List Char :=
  cs.map Char.toLower

/-- Python `e.startswith(p)`. -/
def pyStartsWith (e p : String) : Bool :=
  p.data.isPrefixOf e.data

/-- Python `e.endswith(p)`. -/
def pyEndsWith (e p : String) : Bool :=
  p.data.isSuffixOf e.data

/-- Python `e[2:-2]`. -/
def stripBraces (e : String) : String :=
  String.mk ((e.data.drop 2).dropLast.dropLast)

/-- `isinstance(v, (int, float))`: Python bools count as ints; floats are
outside the modelled value set. -/
def isNumericPy : PyVal → Bool
  | .int _ => true
  | .bool _ => true
  | _ => false

namespace MCP

/-! Embedding of `mcp-runner.py` (the HTTP/REST MCP runner). -/

/-- `is_placeholder_match(expected, actual)` from `mcp-runner.py`.  The
expected value must be a `\x7b\x7b...\x7d\x7d` string; the placeholder
name is `expected[2:-2].strip()`.  Branch order follows the source:
`ANY`, `TIMESTAMP`/`ISO8601`, `UUID` (on the lowercased actual),
`NUMBER`, `STRING`, `BOOLEAN`, then `REGEX:<pattern>` — which this runner
evaluates with `re.match(pattern, actual)`, i.e. anchored at the start of
the actual string (an invalid pattern is caught, warned about and treated
as no match; a pattern outside the modelled regex subset is likewise
`none`). -/
def is_placeholder_match (expected actual : PyVal) : Bool :=
  match expected with
  | .str e =>
    if !(pyStartsWith e "\x7b\x7b" && pyEndsWith e "\x7d\x7d") then false
    else
      let ph := pyStrip (stripBraces e)
      if ph = "ANY" then true
      else if ph = "TIMESTAMP" || ph = "ISO8601" then
        match actual with
        | .str s => reMatchL isoRxPat s.data
        | _ => false
      else if ph = "UUID" then
        match actual with
        | .str s => reMatchL uuidRxPat (toLowerChars s.data)
        | _ => false
      else if ph = "NUMBER" then isNumericPy actual
      else if ph = "STRING" then
        (match actual with | .str _ => true | _ => false)
      else if ph = "BOOLEAN" then
        (match actual with | .bool _ => true | _ => false)
      else if pyStartsWith ph "REGEX:" then
        match actual with
        | .str s =>
          (match parseRx (pyStrip (String.mk (ph.data.drop 6))) with
           | some p => reMatchL p s.data
           | Option.none => false)
        | _ => false
      else false
  | _ => false

mutual
/-- `deep_compare(expected, actual, path)` from `mcp-runner.py`: returns
the full accumulated error list.  Placeholder strings are tried first;
a Python `type()` mismatch is an error unless both sides are numeric
(where `int`/`float`/`bool` values compare by `==`); dicts check every
expected key (extra actual keys ignored), lists compare length then
position by position, scalars by `==`. -/
def deep_compare (expected actual : PyVal) (path : String) : List String :=
  if (match expected with | .str _ => true | _ => false) &&
      is_placeholder_match expected actual then []
  else if expected.typeName ≠ actual.typeName then
    if isNumericPy expected && isNumericPy actual then
      if pyEq expected actual then []
      else [path ++ ": expected " ++ pyStr expected ++ ", got " ++ pyStr actual]
    else
      [path ++ ": type mismatch - expected " ++ expected.typeName ++
        ", got " ++ actual.typeName]
  else
    match expected, actual with
    | .dict pats, .dict a => deepKeys pats a path
    | .list pats, .list xs =>
      if pats.length ≠ xs.length then
        [path ++ ": length mismatch - expected " ++ toString pats.length ++
          ", got " ++ toString xs.length]
      else deepItems pats xs path 0
    | e, act =>
      if pyEq e act then []
      else [path ++ ": expected " ++ pyRepr e ++ ", got " ++ pyRepr act]
termination_by sizeOf expected

/-- The `for key in expected.keys()` loop of `deep_compare`: a missing key
is reported, otherwise the sub-comparison's errors are appended — the
loop keeps going over the remaining keys either way. -/
def deepKeys (pats a : List (String × PyVal)) (path : String) : List String :=
  match pats with
  | [] => []
  | (k, ev) :: rest =>
    (if !hasKeyStr a k then [path ++ "." ++ k ++ ": missing in actual"]
     else deep_compare ev (pyGet a k) (path ++ "." ++ k)) ++ deepKeys rest a path
termination_by sizeOf pats

/-- The positional loop of `deep_compare` for equal-length lists. -/
def deepItems (pats xs : List PyVal) (path : String) (i : Nat) : List String :=
  match pats, xs with
  | e :: er, x :: xr =>
    deep_compare e x (path ++ "[" ++ toString i ++ "]") ++ deepItems er xr path (i + 1)
  | _, _ => []
termination_by sizeOf pats
end

end MCP

namespace MCPServer

/-! Embedding of `mcp-server-runner.py` (the stdio MCP server runner).
`jsonValid` stands for the external `json.loads`-succeeds test the
`\x7b\x7bJSON\x7d\x7d` placeholder performs. -/

/-- `is_placeholder_match(expected, actual)` from `mcp-server-runner.py`.
Branch order follows the source: `ANY`, `NUMBER`, `STRING`, `BOOLEAN`,
`JSON`, `TIMESTAMP`/`ISO8601`, `UUID` (case-insensitive match, modelled
by lowercasing the actual), then `REGEX:<pattern>` — which this runner
evaluates with `re.search(pattern, actual)`, i.e. the pattern may match
anywhere in the actual string.  This runner does not strip the pattern
nor guard against `re.error` (an invalid pattern raises; patterns outside
the modelled subset are `none` here and out of scope of the claims). -/
def is_placeholder_match (jsonValid : String → Bool) (expected actual : PyVal) : Bool :=
  match expected with
  | .str e =>
    if !(pyStartsWith e "\x7b\x7b" && pyEndsWith e "\x7d\x7d") then false
    else
      let ph := pyStrip (stripBraces e)
      if ph = "ANY" then true
      else if ph = "NUMBER" then isNumericPy actual
      else if ph = "STRING" then
        (match actual with | .str _ => true | _ => false)
      else if ph = "BOOLEAN" then
        (match actual with | .bool _ => true | _ => false)
      else if ph = "JSON" then
        (match actual with | .str s => jsonValid s | _ => false)
      else if ph = "TIMESTAMP" || ph = "ISO8601" then
        match actual with
        | .str s => reMatchL isoRxPat s.data
        | _ => false
      else if ph = "UUID" then
        match actual with
        | .str s => reMatchL uuidRxPat (toLowerChars s.data)
        | _ => false
      else if pyStartsWith ph "REGEX:" then
        match actual with
        | .str s =>
          (match parseRx (String.mk (ph.data.drop 6)) with
           | some p => reSearchL p s.data
           | Option.none => false)
        | _ => false
      else false
  | _ => false

mutual
/-- `deep_compare(expected, actual, path)` from `mcp-server-runner.py`:
returns `(is_match, error_message)` and stops at the first mismatch —
unlike the other two runners it reports at most one error.  There is no
numeric int/float leniency here: any `type()` mismatch is an error. -/
def deep_compare (jsonValid : String → Bool) (expected actual : PyVal)
    (path : String) : Bool × Option String :=
  match expected with
  | .str e =>
    if pyStartsWith e "\x7b\x7b" && pyEndsWith e "\x7d\x7d" then
      if is_placeholder_match jsonValid (.str e) actual then (true, Option.none)
      else
        (false, some ("At " ++ path ++ ": Placeholder " ++ e ++ " did not match " ++
          pyRepr actual))
    else
      match actual with
      | .str s =>
        if e = s then (true, Option.none)
        else
          (false, some ("At " ++ path ++ ": Value mismatch - expected " ++
            pyRepr (.str e) ++ ", got " ++ pyRepr (.str s)))
      | act =>
        (false, some ("At " ++ path ++ ": Type mismatch - expected str, got " ++
          act.typeName))
  | e =>
    if e.typeName ≠ actual.typeName then
      (false, some ("At " ++ path ++ ": Type mismatch - expected " ++ e.typeName ++
        ", got " ++ actual.typeName))
    else
      match e, actual with
      | .dict pats, .dict a => dcKeys jsonValid pats a path
      | .list pats, .list xs =>
        if pats.length ≠ xs.length then
          (false, some ("At " ++ path ++ ": List length mismatch - expected " ++
            toString pats.length ++ ", got " ++ toString xs.length))
        else dcItems jsonValid pats xs path 0
      | ex, act =>
        if pyEq ex act then (true, Option.none)
        else
          (false, some ("At " ++ path ++ ": Value mismatch - expected " ++
            pyRepr ex ++ ", got " ++ pyRepr act))
termination_by sizeOf expected

/-- The dict loop of `deep_compare`: report the first missing key or first
failing sub-comparison. -/
def dcKeys (jsonValid : String → Bool) (pats a : List (String × PyVal))
    (path : String) : Bool × Option String :=
  match pats with
  | [] => (true, Option.none)
  | (k, ev) :: rest =>
    if !hasKeyStr a k then
      (false, some ("At " ++ path ++ ": Missing key '" ++ k ++ "'"))
    else
      match deep_compare jsonValid ev (pyGet a k) (path ++ "." ++ k) with
      | (true, _) => dcKeys jsonValid rest a path
      | (false, err) => (false, err)
termination_by sizeOf pats

/-- The list loop of `deep_compare`: first failing element wins. -/
def dcItems (jsonValid : String → Bool) (pats xs : List PyVal) (path : String)
    (i : Nat) : Bool × Option String :=
  match pats, xs with
  | e :: er, x :: xr =>
    (match deep_compare jsonValid e x (path ++ "[" ++ toString i ++ "]") with
     | (true, _) => dcItems jsonValid er xr path (i + 1)
     | (false, err) => (false, err))
  | _, _ => (true, Option.none)
termination_by sizeOf pats
end

end MCPServer

namespace Spec

/-- Stated from the specification's words (4.4 step 2), for comparison
with the source-derived matcher: containment semantics by actual type —
string: every expected item occurs as a substring; array: every expected
item is an element (equality, order-independent); object: every expected
item occurs as a substring of the object's JSON serialization; any other
actual type (and a non-array `contains` value) fails. -/
def containsOk (actual : PyVal) (expectedContains : PyVal) : Bool :=
  match expectedContains with
  | .list items =>
    match actual with
    | .str s => items.all (fun it => isSubstring (pyStr it).data s.data)
    | .list xs => items.all (fun it => xs.any (fun x => pyEq it x))
    | .dict d => items.all (fun it => isSubstring (pyStr it).data (jsonDumps (.dict d)).data)
    | _ => false
  | _ => false

end Spec

/-! Helper lemmas shared by the claim proofs. -/

theorem filterMap_if_isEmpty {α : Type} (p : α → Bool) (m : α → String) (l : List α) :
    (l.filterMap (fun it => if p it then Option.none else some (m it))).isEmpty = l.all p := by
  induction l with
  | nil => rfl
  | cons x xs ih =>
    by_cases hx : p x <;> simp [List.filterMap_cons, hx, ih]

theorem lookupStr_none_ne {pats : List (String × PyVal)} {k : String}
    (h : lookupStr pats k = Option.none) : ∀ q ∈ pats, q.1 ≠ k := by
  induction pats with
  | nil => intro q hq; cases hq
  | cons hd tl ih =>
    intro q hq
    obtain ⟨k0, v0⟩ := hd
    by_cases hk : k0 = k
    · simp [lookupStr, hk] at h
    · simp only [lookupStr, if_neg hk] at h
      cases hq with
      | head => exact hk
      | tail _ hq => exact ih h q hq

theorem lookupStr_cons_ne {a : List (String × PyVal)} {k k' : String} {v : PyVal}
    (h : k ≠ k') : lookupStr ((k, v) :: a) k' = lookupStr a k' := by
  simp [lookupStr, h]

theorem pyGet_cons_ne {a : List (String × PyVal)} {k k' : String} {v : PyVal}
    (h : k ≠ k') : pyGet ((k, v) :: a) k' = pyGet a k' := by
  simp [pyGet, lookupStr_cons_ne h]

theorem hasKeyStr_cons_ne {a : List (String × PyVal)} {k k' : String} {v : PyVal}
    (h : k ≠ k') : hasKeyStr ((k, v) :: a) k' = hasKeyStr a k' := by
  simp [hasKeyStr, lookupStr_cons_ne h]

theorem validate_contains_isEmpty (actual c : PyVal) (path : String) :
    (LSP.validate_contains actual c path).isEmpty = Spec.containsOk actual c := by
  cases c <;> cases actual <;>
    simp only [LSP.validate_contains, Spec.containsOk, List.isEmpty_cons] <;>
    first
      | rfl
      | exact filterMap_if_isEmpty _ _ _

theorem validateKeys_ext {a pats : List (String × PyVal)} {path k : String} {v : PyVal}
    (h : ∀ q ∈ pats, q.1 ≠ k) :
    LSP.validateKeys ((k, v) :: a) pats path = LSP.validateKeys a pats path := by
  induction pats with
  | nil => simp [LSP.validateKeys]
  | cons hd tl ih =>
    obtain ⟨k', ev⟩ := hd
    have hk : k' ≠ k := h (k', ev) (List.mem_cons_self _ _)
    have hne : k ≠ k' := fun e => hk e.symm
    simp only [LSP.validateKeys, pyGet_cons_ne hne]
    rw [ih (fun q hq => h q (List.mem_cons_of_mem _ hq))]

theorem deepKeys_ext {pats a : List (String × PyVal)} {path k : String} {v : PyVal}
    (h : ∀ q ∈ pats, q.1 ≠ k) :
    MCP.deepKeys pats ((k, v) :: a) path = MCP.deepKeys pats a path := by
  induction pats with
  | nil => simp [MCP.deepKeys]
  | cons hd tl ih =>
    obtain ⟨k', ev⟩ := hd
    have hk : k' ≠ k := h (k', ev) (List.mem_cons_self _ _)
    have hne : k ≠ k' := fun e => hk e.symm
    simp only [MCP.deepKeys, pyGet_cons_ne hne, hasKeyStr_cons_ne hne]
    rw [ih (fun q hq => h q (List.mem_cons_of_mem _ hq))]

theorem validateKeys_mem {a pats : List (String × PyVal)} {path k : String}
    {ev : PyVal} {e : String} (hm : (k, ev) ∈ pats)
    (he : e ∈ LSP.validate (pyGet a k) ev (path ++ "." ++ k)) :
    e ∈ LSP.validateKeys a pats path := by
  induction pats with
  | nil => cases hm
  | cons hd tl ih =>
    obtain ⟨k1, ev1⟩ := hd
    simp only [LSP.validateKeys]
    cases hm with
    | head => exact List.mem_append_left _ he
    | tail _ hm => exact List.mem_append_right _ (ih hm)

theorem dcKeys_first_error {jv : String → Bool} {k1 : String} {e1 : PyVal}
    {rest a : List (String × PyVal)} {path m : String}
    (hk : hasKeyStr a k1 = true)
    (hf : MCPServer.deep_compare jv e1 (pyGet a k1) (path ++ "." ++ k1) = (false, some m)) :
    MCPServer.dcKeys jv ((k1, e1) :: rest) a path = (false, some m) := by
  simp only [MCPServer.dcKeys, hk, Bool.not_true, Bool.false_eq_true, if_false, hf]

theorem validate_list_length {xs pats : List PyVal} {p : String}
    (h : LSP.validate (.list xs) (.list pats) p = []) : xs.length = pats.length := by
  by_contra hne
  simp only [LSP.validate] at h
  rw [if_pos hne] at h
  exact absurd h (by simp)

theorem validate_list_length_err {xs pats : List PyVal} {p : String}
    (h : xs.length ≠ pats.length) :
    LSP.validate (.list xs) (.list pats) p =
      [p ++ ": expected " ++ toString pats.length ++ " items, got " ++
        toString xs.length] := by
  simp only [LSP.validate]
  rw [if_pos h]

theorem deep_compare_list_length {pats xs : List PyVal} {p : String}
    (h : MCP.deep_compare (.list pats) (.list xs) p = []) : pats.length = xs.length := by
  by_contra hne
  simp only [MCP.deep_compare, MCP.is_placeholder_match, PyVal.typeName] at h
  rw [if_pos hne] at h
  exact absurd h (by simp)

theorem deep_compare_list_length_err {pats xs : List PyVal} {p : String}
    (h : pats.length ≠ xs.length) :
    MCP.deep_compare (.list pats) (.list xs) p =
      [p ++ ": length mismatch - expected " ++ toString pats.length ++ ", got " ++
        toString xs.length] := by
  simp only [MCP.deep_compare, MCP.is_placeholder_match, PyVal.typeName]
  rw [if_pos h]
  simp

/-! Claim theorems. -/

/-- C1: the notification-queue scan never silently drops a non-matching
entry, in both the timeout and the match outcome.  The source violates
the match half: `wait_for_notification` returns the matching entry at
once and its `collected` list — holding the non-matching entries already
examined, despite the "Put it back for other waiters" comment — is only
re-queued on the timeout path.  Here a queue holding a non-matching
notification followed by a matching one ends up empty after a successful
wait: the non-matching entry is gone.  The timeout path (second
conjunct) does requeue it. -/
theorem claim_C1_queue_drop_on_match :
    LSP.wait_for_notification "m"
        [.dict [("method", .str "other"), ("params", .none)],
         .dict [("method", .str "m")]] =
      (some (.dict [("method", .str "m")]), []) ∧
    LSP.wait_for_notification "m" [.dict [("method", .str "other"), ("params", .none)]] =
      (Option.none, [.dict [("method", .str "other"), ("params", .none)]]) := by
  constructor <;>
    simp [LSP.wait_for_notification, LSP.waitScan, LSP.notifMethod, pyGet, lookupStr, pyEq]

/-- C3 counterexample: the claim requires a message to be stored as a
Response only when its id matches a previously-sent request id, and every
other message to be appended to the notification queue.  On a fresh
client (no request ever sent, counter 0) a message with the never-issued
id 999 is nevertheless stored into `pending_responses`: the source only
tests `'id' in message`.  And a message with neither `id` nor `method`
leaves the state unchanged — it is dropped, not enqueued. -/
theorem claim_C3_counterexample :
    (LSP.handle_message [("jsonrpc", .str "2.0"), ("id", .int 999), ("result", .none)]
        LSP.initClient).pending_responses =
      [(.int 999, .dict [("jsonrpc", .str "2.0"), ("id", .int 999), ("result", .none)])] ∧
    LSP.initClient.request_id = 0 ∧
    LSP.handle_message [("jsonrpc", .str "2.0")] LSP.initClient = LSP.initClient := by
  refine ⟨?_, rfl, ?_⟩ <;> rfl

/-- C3 as amended: `_handle_message` stores a message as a Response iff it
carries an `id` key — with no check against the set of previously-sent
ids — and otherwise appends it to the notification queue iff it carries a
`method` key; a message with neither key is dropped. -/
theorem claim_C3_classification (m : List (String × PyVal)) (st : LSP.ClientState) :
    (∀ i : PyVal, lookupStr m "id" = some i →
      LSP.handle_message m st =
        { st with pending_responses := LSP.insertV st.pending_responses i (.dict m) }) ∧
    (lookupStr m "id" = Option.none → ∀ x : PyVal, lookupStr m "method" = some x →
      LSP.handle_message m st =
        { st with notifications := st.notifications ++ [.dict m] }) ∧
    (lookupStr m "id" = Option.none → lookupStr m "method" = Option.none →
      LSP.handle_message m st = st) := by
  refine ⟨?_, ?_, ?_⟩
  · intro i hi
    simp [LSP.handle_message, hi]
  · intro hi x hx
    simp [LSP.handle_message, hi, hx]
  · intro hi hx
    simp [LSP.handle_message, hi, hx]

theorem claim_C3_classification_witness :
    LSP.handle_message [("id", .int 7)] LSP.initClient =
      { LSP.initClient with
          pending_responses := LSP.insertV LSP.initClient.pending_responses (.int 7)
            (.dict [("id", .int 7)]) } ∧
    LSP.handle_message [("method", .str "x")] LSP.initClient =
      { LSP.initClient with
          notifications := LSP.initClient.notifications ++ [.dict [("method", .str "x")]] } ∧
    LSP.handle_message [] LSP.initClient = LSP.initClient :=
  ⟨(claim_C3_classification [("id", .int 7)] LSP.initClient).1 (.int 7) rfl,
   (claim_C3_classification [("method", .str "x")] LSP.initClient).2.1 rfl (.str "x") rfl,
   (claim_C3_classification [] LSP.initClient).2.2 rfl rfl⟩

/-- C9 counterexample: the claim requires a distinguishable
`ProtocolError` outcome when `Content-Length` is missing or zero or when
the header block never terminates.  The source instead returns `None` —
the ordinary no-message outcome — for a missing or zero `Content-Length`,
and its readline loop never exits when the header block is unterminated;
no error outcome exists. -/
theorem claim_C9_counterexample :
    LSP.read_message (fun _ => some PyVal.none) ["\r\n"] "" = LSP.ReadOutcome.noMessage ∧
    LSP.read_message (fun _ => some PyVal.none) ["Content-Length: 0\r\n", "\r\n"] "x" =
      LSP.ReadOutcome.noMessage ∧
    LSP.read_message (fun _ => some PyVal.none) ["Content-Length: 5\r\n"] "hello" =
      LSP.ReadOutcome.spin := by
  refine ⟨rfl, rfl, rfl⟩

/-- C9 as amended: with the headers parsed, a missing `Content-Length`
(defaulted to 0) or an explicit `"0"` yields the ordinary no-message
result `None`; an unterminated header block makes the reader loop
forever.  There is no `ProtocolError`-like outcome. -/
theorem claim_C9_no_protocol_error (jl : String → Option PyVal) (lines : List String)
    (body : String) (hs : List (String × String)) :
    (LSP.parseHeaders lines [] = some hs →
      LSP.lookupS hs "Content-Length" = Option.none →
      LSP.read_message jl lines body = LSP.ReadOutcome.noMessage) ∧
    (LSP.parseHeaders lines [] = some hs →
      LSP.lookupS hs "Content-Length" = some "0" →
      LSP.read_message jl lines body = LSP.ReadOutcome.noMessage) ∧
    (LSP.parseHeaders lines [] = Option.none →
      LSP.read_message jl lines body = LSP.ReadOutcome.spin) := by
  refine ⟨?_, ?_, ?_⟩
  · intro h1 h2
    simp [LSP.read_message, h1, h2]
  · intro h1 h2
    have h0 : LSP.parseIntPy "0" = some 0 := rfl
    simp [LSP.read_message, h1, h2, h0]
  · intro h1
    simp [LSP.read_message, h1]

theorem claim_C9_no_protocol_error_witness :
    LSP.read_message (fun _ => some PyVal.none) ["X: y\r\n", "\r\n"] "" =
      LSP.ReadOutcome.noMessage ∧
    LSP.read_message (fun _ => some PyVal.none) ["Content-Length: 0\r\n", "\r\n"] "" =
      LSP.ReadOutcome.noMessage ∧
    LSP.read_message (fun _ => some PyVal.none) ["nope"] "" = LSP.ReadOutcome.spin :=
  ⟨(claim_C9_no_protocol_error _ _ _ [("X", "y")]).1 rfl rfl,
   (claim_C9_no_protocol_error _ _ _ [("Content-Length", "0")]).2.1 rfl rfl,
   (claim_C9_no_protocol_error _ _ _ []).2.2 rfl⟩

theorem validate_dict_keys (a pats : List (String × PyVal)) (p : String)
    (hcont : lookupStr pats "contains" = Option.none) :
    LSP.validate (.dict a) (.dict pats) p = LSP.validateKeys a pats p := by
  simp only [LSP.validate, hcont]

theorem deep_compare_dict_keys (pats a : List (String × PyVal)) (p : String) :
    MCP.deep_compare (.dict pats) (.dict a) p = MCP.deepKeys pats a p := by
  simp [MCP.deep_compare, MCP.is_placeholder_match, PyVal.typeName]

theorem server_deep_compare_dict (jv : String → Bool) (pats a : List (String × PyVal))
    (p : String) :
    MCPServer.deep_compare jv (.dict pats) (.dict a) p = MCPServer.dcKeys jv pats a p := by
  rw [MCPServer.deep_compare.eq_def]
  simp [PyVal.typeName]

/-- C6: when an object pattern carries a `contains` key, the validator
evaluates containment before any type check on the actual value (the
equation holds for every actual, strings and arrays included), with the
spec's by-type semantics (`Spec.containsOk`); and the end-to-end
capabilities scenario passes. -/
theorem claim_C6_contains_before_type_check (actual : PyVal)
    (pats : List (String × PyVal)) (path : String) (c : PyVal)
    (hc : lookupStr pats "contains" = some c) :
    (LSP.validate actual (.dict pats) path).isEmpty = Spec.containsOk actual c ∧
    LSP.validate
      (.dict [("capabilities",
        .dict [("hoverProvider", .bool true), ("completionProvider", .bool false)])])
      (.dict [("capabilities", .dict [("contains", .list [.str "hoverProvider"])])])
      "result" = [] := by
  constructor
  · cases actual <;>
      first
        | (rw [LSP.validate.eq_3]
           simp only [hc]
           exact validate_contains_isEmpty _ c path)
        | (rw [LSP.validate.eq_4 _ _ _ (fun _ h => PyVal.noConfusion h)]
           simp only [hc]
           exact validate_contains_isEmpty _ c path)
  · simp [LSP.validate, LSP.validateKeys, LSP.validate_contains, lookupStr, pyGet, pyStr,
      pyRepr, jsonDumps, jsonDumpsDict, jsonQuote, jsonEscChar, joinComma, isSubstring]

theorem claim_C6_contains_before_type_check_witness :
    lookupStr [("contains", .list [.str "b"])] "contains" = some (.list [.str "b"]) ∧
    (LSP.validate (.str "abc") (.dict [("contains", .list [.str "b"])]) "p").isEmpty =
      Spec.containsOk (.str "abc") (.list [.str "b"]) :=
  ⟨rfl, (claim_C6_contains_before_type_check (.str "abc") [("contains", .list [.str "b"])]
    "p" (.list [.str "b"]) rfl).1⟩

/-- C7: object subset law.  For an object pattern without a `contains`
key, an actual object that satisfies the pattern still satisfies it after
being extended with any binding whose key the pattern does not mention —
both for the LSP validator and for the MCP runner's `deep_compare`
(pattern keys are looked up, extra actual keys are ignored). -/
theorem claim_C7_object_subset (a pats : List (String × PyVal)) (p k : String) (v : PyVal)
    (hcont : lookupStr pats "contains" = Option.none)
    (hk : lookupStr pats k = Option.none) :
    (LSP.validate (.dict a) (.dict pats) p = [] →
      LSP.validate (.dict ((k, v) :: a)) (.dict pats) p = []) ∧
    (MCP.deep_compare (.dict pats) (.dict a) p = [] →
      MCP.deep_compare (.dict pats) (.dict ((k, v) :: a)) p = []) := by
  have hne := lookupStr_none_ne hk
  constructor
  · intro h
    rw [validate_dict_keys _ _ _ hcont] at h ⊢
    rw [validateKeys_ext hne]
    exact h
  · intro h
    rw [deep_compare_dict_keys] at h ⊢
    rw [deepKeys_ext hne]
    exact h

theorem claim_C7_object_subset_witness :
    lookupStr [("a", PyVal.int 1)] "contains" = Option.none ∧
    lookupStr [("a", PyVal.int 1)] "b" = Option.none ∧
    LSP.validate (.dict [("a", .int 1)]) (.dict [("a", .int 1)]) "result" = [] ∧
    LSP.validate (.dict [("b", .bool true), ("a", .int 1)]) (.dict [("a", .int 1)])
      "result" = [] ∧
    MCP.deep_compare (.dict [("a", .int 1)])
      (.dict [("b", .bool true), ("a", .int 1)]) "$" = [] := by
  have hmatch : LSP.validate (.dict [("a", .int 1)]) (.dict [("a", .int 1)]) "result" = [] := by
    simp [LSP.validate, LSP.validateKeys, lookupStr, pyGet, pyEq]
  have hmatch2 : MCP.deep_compare (.dict [("a", .int 1)]) (.dict [("a", .int 1)]) "$" = [] := by
    simp [MCP.deep_compare, MCP.deepKeys, MCP.is_placeholder_match, PyVal.typeName,
      hasKeyStr, lookupStr, pyGet, pyEq, isNumericPy]
  refine ⟨rfl, rfl, hmatch, ?_, ?_⟩
  · exact (claim_C7_object_subset [("a", .int 1)] [("a", .int 1)] "result" "b"
      (.bool true) rfl rfl).1 hmatch
  · exact (claim_C7_object_subset [("a", .int 1)] [("a", .int 1)] "$" "b"
      (.bool true) rfl rfl).2 hmatch2

/-- C8: array exactness law.  An array that matches an array pattern
stops matching after appending or removing any element (both matchers
compare lengths first and report a single length mismatch), and the
`[1, 2]`-versus-`[1]` scenario yields exactly one length-difference
mismatch in each matcher. -/
theorem claim_C8_array_exactness (xs pats : List PyVal) (p : String) :
    (LSP.validate (.list xs) (.list pats) p = [] →
      (∀ x : PyVal, LSP.validate (.list (xs ++ [x])) (.list pats) p ≠ []) ∧
      (∀ i : Nat, i < xs.length →
        LSP.validate (.list (xs.eraseIdx i)) (.list pats) p ≠ [])) ∧
    (MCP.deep_compare (.list pats) (.list xs) p = [] →
      (∀ x : PyVal, MCP.deep_compare (.list pats) (.list (xs ++ [x])) p ≠ []) ∧
      (∀ i : Nat, i < xs.length →
        MCP.deep_compare (.list pats) (.list (xs.eraseIdx i)) p ≠ [])) ∧
    LSP.validate (.list [.int 1]) (.list [.int 1, .int 2]) "result" =
      ["result: expected 2 items, got 1"] ∧
    MCP.deep_compare (.list [.int 1, .int 2]) (.list [.int 1]) "$" =
      ["$: length mismatch - expected 2, got 1"] := by
  refine ⟨?_, ?_, ?_, ?_⟩
  · intro h
    have hlen := validate_list_length h
    constructor
    · intro x
      rw [@validate_list_length_err (xs ++ [x]) pats p
        (by simp only [List.length_append, List.length_singleton]; omega)]
      simp
    · intro i hi
      have he := List.length_eraseIdx_add_one hi
      rw [@validate_list_length_err (xs.eraseIdx i) pats p (by omega)]
      simp
  · intro h
    have hlen := deep_compare_list_length h
    constructor
    · intro x
      rw [@deep_compare_list_length_err pats (xs ++ [x]) p
        (by simp only [List.length_append, List.length_singleton]; omega)]
      simp
    · intro i hi
      have he := List.length_eraseIdx_add_one hi
      rw [@deep_compare_list_length_err pats (xs.eraseIdx i) p (by omega)]
      simp
  · exact validate_list_length_err (by simp)
  · exact deep_compare_list_length_err (by simp)

theorem claim_C8_array_exactness_witness :
    LSP.validate (.list [.int 3]) (.list [.int 3]) "result" = [] ∧
    LSP.validate (.list [.int 3, .int 4]) (.list [.int 3]) "result" ≠ [] ∧
    LSP.validate (.list ([PyVal.int 3].eraseIdx 0)) (.list [.int 3]) "result" ≠ [] ∧
    MCP.deep_compare (.list [.int 3]) (.list [.int 3, .int 4]) "$" ≠ [] := by
  have hm : LSP.validate (.list [.int 3]) (.list [.int 3]) "result" = [] := by
    simp [LSP.validate, LSP.validateItems, pyEq]
  have hm2 : MCP.deep_compare (.list [.int 3]) (.list [.int 3]) "$" = [] := by
    simp [MCP.deep_compare, MCP.deepItems, MCP.is_placeholder_match, PyVal.typeName,
      pyEq, isNumericPy]
  refine ⟨hm, ?_, ?_, ?_⟩
  · have := ((claim_C8_array_exactness [.int 3] [.int 3] "result").1 hm).1 (.int 4)
    simpa using this
  · exact ((claim_C8_array_exactness [.int 3] [.int 3] "result").1 hm).2 0 (by simp)
  · have := ((claim_C8_array_exactness [.int 3] [.int 3] "$").2.1 hm2).1 (.int 4)
    simpa using this

/-- C2 counterexample: the claim requires every Matcher validation call —
the cited symbols include `mcp-server-runner.py`'s `deep_compare` — to
return the full list of mismatches.  On an actual with two mismatching
keys, that `deep_compare` returns a single error (its result type holds
at most one message), while the LSP validator reports both mismatches for
the same data. -/
theorem claim_C2_counterexample :
    MCPServer.deep_compare (fun _ => false) (.dict [("a", .int 1), ("b", .int 2)])
        (.dict [("a", .int 9), ("b", .int 9)]) "root" =
      (false, some "At root.a: Value mismatch - expected 1, got 9") ∧
    LSP.validate (.dict [("a", .int 9), ("b", .int 9)])
        (.dict [("a", .int 1), ("b", .int 2)]) "result" =
      ["result.a: expected 1, got 9", "result.b: expected 2, got 9"] := by
  constructor
  · simp [MCPServer.deep_compare, MCPServer.dcKeys, MCPServer.is_placeholder_match,
      hasKeyStr, lookupStr, pyGet, pyEq, pyRepr, PyVal.typeName, pyStartsWith, pyEndsWith]
    rfl
  · simp [LSP.validate, LSP.validateKeys, lookupStr, pyGet, pyEq, pyRepr]
    constructor <;> rfl

/-- C2 as amended: the LSP validator does return the full list — every
mismatch produced for any pattern key appears in the returned list — and
each is tagged with the dotted path of that key; the mcp-server runner's
`deep_compare`, by contrast, short-circuits and reports exactly the first
mismatch it meets. -/
theorem claim_C2_full_list (a pats : List (String × PyVal)) (p k : String) (ev : PyVal)
    (e : String) (jv : String → Bool) (k1 : String) (e1 : PyVal)
    (rest : List (String × PyVal)) (a2 : List (String × PyVal)) (p2 m : String)
    (hcont : lookupStr pats "contains" = Option.none)
    (hm : (k, ev) ∈ pats)
    (he : e ∈ LSP.validate (pyGet a k) ev (p ++ "." ++ k)) :
    e ∈ LSP.validate (.dict a) (.dict pats) p ∧
    (hasKeyStr a2 k1 = true →
      MCPServer.deep_compare jv e1 (pyGet a2 k1) (p2 ++ "." ++ k1) = (false, some m) →
      MCPServer.deep_compare jv (.dict ((k1, e1) :: rest)) (.dict a2) p2 =
        (false, some m)) := by
  constructor
  · rw [validate_dict_keys _ _ _ hcont]
    exact validateKeys_mem hm he
  · intro hk hf
    rw [server_deep_compare_dict]
    exact dcKeys_first_error hk hf

theorem claim_C2_full_list_witness :
    "result.b: expected 2, got 9" ∈
      LSP.validate (.dict [("a", .int 9), ("b", .int 9)])
        (.dict [("a", .int 1), ("b", .int 2)]) "result" ∧
    MCPServer.deep_compare (fun _ => false) (.dict [("b", .int 2)])
        (.dict [("b", .int 9)]) "root" =
      (false, some "At root.b: Value mismatch - expected 2, got 9") := by
  have hsub : "result.b: expected 2, got 9" ∈
      LSP.validate (pyGet [("a", PyVal.int 9), ("b", PyVal.int 9)] "b") (.int 2)
        ("result" ++ "." ++ "b") := by
    simp [LSP.validate, pyGet, lookupStr, pyEq, pyRepr]
    rfl
  have hf : MCPServer.deep_compare (fun _ => false) (.int 2)
      (pyGet [("b", PyVal.int 9)] "b") ("root" ++ "." ++ "b") =
      (false, some "At root.b: Value mismatch - expected 2, got 9") := by
    simp [MCPServer.deep_compare, pyGet, lookupStr, pyEq, pyRepr, PyVal.typeName]
    rfl
  exact ⟨(claim_C2_full_list [("a", .int 9), ("b", .int 9)]
      [("a", .int 1), ("b", .int 2)] "result" "b" (.int 2)
      "result.b: expected 2, got 9" (fun _ => false) "b" (.int 2) [] [("b", .int 9)]
      "root" "At root.b: Value mismatch - expected 2, got 9" rfl (by simp) hsub).1,
    (claim_C2_full_list [("a", .int 9), ("b", .int 9)]
      [("a", .int 1), ("b", .int 2)] "result" "b" (.int 2)
      "result.b: expected 2, got 9" (fun _ => false) "b" (.int 2) [] [("b", .int 9)]
      "root" "At root.b: Value mismatch - expected 2, got 9" rfl (by simp) hsub).2
      rfl hf⟩

/-! String-scanning helper lemmas for the template and placeholder claims. -/

theorem takeWhile_append_all {α : Type} {pr : α → Bool} {l1 l2 : List α}
    (h : ∀ c ∈ l1, pr c = true) :
    (l1 ++ l2).takeWhile pr = l1 ++ l2.takeWhile pr := by
  induction l1 with
  | nil => simp
  | cons a l ih =>
    have ha := h a (List.mem_cons_self _ _)
    simp only [List.cons_append, List.takeWhile_cons, ha, if_true]
    rw [ih (fun c hc => h c (List.mem_cons_of_mem _ hc))]

theorem dropWhile_append_all {α : Type} {pr : α → Bool} {l1 l2 : List α}
    (h : ∀ c ∈ l1, pr c = true) :
    (l1 ++ l2).dropWhile pr = l2.dropWhile pr := by
  induction l1 with
  | nil => simp
  | cons a l ih =>
    have ha := h a (List.mem_cons_self _ _)
    simp only [List.cons_append, List.dropWhile_cons, ha, if_true]
    exact ih (fun c hc => h c (List.mem_cons_of_mem _ hc))

theorem dropWhile_all_neg {α : Type} {pr : α → Bool} {l : List α}
    (h : ∀ c ∈ l, pr c = false) : l.dropWhile pr = l := by
  cases l with
  | nil => rfl
  | cons a t =>
    have ha := h a (List.mem_cons_self _ _)
    simp [List.dropWhile_cons, ha]

theorem stripChars_of_all {l : List Char} (h : ∀ c ∈ l, pyIsSpace c = false) :
    stripChars l = l := by
  unfold stripChars
  rw [dropWhile_all_neg h]
  rw [dropWhile_all_neg (fun c hc => h c (List.mem_reverse.mp hc))]
  exact List.reverse_reverse l

theorem pyStrip_of_all {s : String} (h : ∀ c ∈ s.data, pyIsSpace c = false) :
    pyStrip s = s := by
  unfold pyStrip
  rw [stripChars_of_all h]

theorem findToken_token {p rest : List Char} (hne : p ≠ [])
    (hnb : ∀ c ∈ p, c ≠ '\x7d') :
    LSP.findToken (p ++ '\x7d' :: '\x7d' :: rest) = some (String.mk p, rest) := by
  have hall : ∀ c ∈ p, (fun c => decide (c ≠ '\x7d')) c = true := by
    intro c hc
    simpa using hnb c hc
  have htw : (p ++ '\x7d' :: '\x7d' :: rest).takeWhile (fun c => decide (c ≠ '\x7d')) = p := by
    rw [takeWhile_append_all hall]
    simp [List.takeWhile_cons]
  have hdw : (p ++ '\x7d' :: '\x7d' :: rest).dropWhile (fun c => decide (c ≠ '\x7d')) =
      '\x7d' :: '\x7d' :: rest := by
    rw [dropWhile_append_all hall]
    simp [List.dropWhile_cons]
  obtain ⟨a, p', rfl⟩ := List.exists_cons_of_ne_nil hne
  unfold LSP.findToken
  rw [htw, hdw]
  rfl

theorem subChars_single_token (res : String → String) (p : List Char)
    (hne : p ≠ []) (hnb : ∀ c ∈ p, c ≠ '\x7d') :
    LSP.subChars res ('\x7b' :: '\x7b' :: (p ++ ['\x7d', '\x7d'])) =
      (res (String.mk p)).data := by
  have hlen : ('\x7b' :: '\x7b' :: (p ++ ['\x7d', '\x7d'])).length = (p.length + 3) + 1 := by
    simp [List.length_append]
  unfold LSP.subChars
  rw [hlen]
  simp only [LSP.subCharsF]
  rw [show (p ++ ['\x7d', '\x7d']) = p ++ '\x7d' :: '\x7d' :: [] from rfl,
    findToken_token hne hnb]
  simp [LSP.subCharsF]

theorem mk_data (s : String) : String.mk s.data = s := by
  cases s
  rfl

/-- C10: substituting into a string value always produces a string value
(`re.sub` returns `str`), and a string consisting of exactly one
`\x7b\x7bpath\x7d\x7d` token is replaced by the `str()` rendering of the
resolved value — so a path resolving to a number yields its digit string
and one resolving to Python `None` yields the text `"None"`, not a typed
value. -/
theorem claim_C10_textual_substitution (docs vars : List (String × PyVal)) :
    (∀ s : String, ∃ t : String, LSP.substitute docs vars (.str s) = .str t) ∧
    (∀ path : String, path.data ≠ [] →
      (∀ c ∈ path.data, c ≠ '\x7d') →
      (∀ c ∈ path.data, pyIsSpace c = false) →
      LSP.substitute_string docs vars ("\x7b\x7b" ++ path ++ "\x7d\x7d") =
        pyStr (LSP.resolve_path docs vars path)) := by
  constructor
  · intro s
    exact ⟨LSP.substitute_string docs vars s, by simp [LSP.substitute]⟩
  · intro path hne hnb hns
    unfold LSP.substitute_string
    have h1 : ("\x7b\x7b" : String).data = ['\x7b', '\x7b'] := rfl
    have h2 : ("\x7d\x7d" : String).data = ['\x7d', '\x7d'] := rfl
    have hdata : ("\x7b\x7b" ++ path ++ "\x7d\x7d").data =
        '\x7b' :: '\x7b' :: (path.data ++ ['\x7d', '\x7d']) := by
      simp [String.data_append, h1, h2]
    rw [hdata, subChars_single_token _ _ hne hnb, mk_data path, pyStrip_of_all hns,
      mk_data]

theorem claim_C10_textual_substitution_witness :
    ("variables.x" : String).data ≠ [] ∧
    LSP.substitute_string [] [("x", .int 5)] "\x7b\x7bvariables.x\x7d\x7d" =
      pyStr (LSP.resolve_path [] [("x", .int 5)] "variables.x") ∧
    LSP.substitute_string [] [("x", .none)] "\x7b\x7bvariables.x\x7d\x7d" =
      pyStr (LSP.resolve_path [] [("x", .none)] "variables.x") ∧
    pyStr (LSP.resolve_path [] [("x", PyVal.int 5)] "variables.x") = "5" ∧
    pyStr (LSP.resolve_path [] [("x", PyVal.none)] "variables.x") = "None" ∧
    (∃ t : String, LSP.substitute [] [] (.str "hello") = .str t) :=
  ⟨by decide,
   (claim_C10_textual_substitution [] [("x", .int 5)]).2 "variables.x" (by decide)
     (by decide) (by decide),
   (claim_C10_textual_substitution [] [("x", .none)]).2 "variables.x" (by decide)
     (by decide) (by decide),
   by simp [LSP.resolve_path, pySplitDot, splitDotChars, LSP.walkDoc, pyGet, lookupStr,
     pyStr, pyRepr]; rfl,
   by simp [LSP.resolve_path, pySplitDot, splitDotChars, LSP.walkDoc, pyGet, lookupStr,
     pyStr, pyRepr],
   (claim_C10_textual_substitution [] []).1 "hello"⟩

theorem splitDotChars_cons_ne {c : Char} {t : List Char} (hc : c ≠ '.') :
    splitDotChars (c :: t) =
      (match splitDotChars t with
       | g :: gs => (c :: g) :: gs
       | [] => [[c]]) := by
  rw [splitDotChars.eq_3 _ _ (by simpa using hc)]

theorem splitDotChars_ne_nil (l : List Char) : splitDotChars l ≠ [] := by
  induction l with
  | nil => simp [splitDotChars]
  | cons c t ih =>
    by_cases hc : c = '.'
    · subst hc
      simp [splitDotChars]
    · rw [splitDotChars_cons_ne hc]
      cases hsp : splitDotChars t <;> simp

theorem splitDotChars_dotfree_append {l1 l2 : List Char} (h : ∀ c ∈ l1, c ≠ '.') :
    splitDotChars (l1 ++ l2) =
      (l1 ++ (splitDotChars l2).headI) :: (splitDotChars l2).tail := by
  induction l1 with
  | nil =>
    cases hsp : splitDotChars l2 with
    | nil => exact absurd hsp (splitDotChars_ne_nil _)
    | cons g gs => simp [hsp]
  | cons c t ih =>
    have hc : c ≠ '.' := h c (List.mem_cons_self _ _)
    rw [List.cons_append, splitDotChars_cons_ne hc,
      ih (fun x hx => h x (List.mem_cons_of_mem _ hx))]
    simp

theorem splitDotChars_dotfree {l : List Char} (h : ∀ c ∈ l, c ≠ '.') :
    splitDotChars l = [l] := by
  have := @splitDotChars_dotfree_append l [] h
  simpa [splitDotChars] using this

theorem pySplitDot_documents (d : String) (hd : ∀ c ∈ d.data, c ≠ '.') :
    pySplitDot ("documents." ++ d) = ["documents", d] := by
  unfold pySplitDot
  have hdoc : ∀ c ∈ ("documents" : String).data, c ≠ '.' := by decide
  have hdata : ("documents." ++ d).data = "documents".data ++ ('.' :: d.data) := by
    rw [String.data_append]
    rfl
  rw [hdata, splitDotChars_dotfree_append hdoc, splitDotChars.eq_2,
    splitDotChars_dotfree hd]
  simp [mk_data]

theorem pySplitDot_documents_two (d fld : String) (hd : ∀ c ∈ d.data, c ≠ '.')
    (hf : ∀ c ∈ fld.data, c ≠ '.') :
    pySplitDot ("documents." ++ d ++ "." ++ fld) = ["documents", d, fld] := by
  unfold pySplitDot
  have hdoc : ∀ c ∈ ("documents" : String).data, c ≠ '.' := by decide
  have hdata : ("documents." ++ d ++ "." ++ fld).data =
      "documents".data ++ ('.' :: (d.data ++ ('.' :: fld.data))) := by
    simp [String.data_append]
  rw [hdata, splitDotChars_dotfree_append hdoc, splitDotChars.eq_2,
    splitDotChars_dotfree_append hd, splitDotChars.eq_2, splitDotChars_dotfree hf]
  simp [mk_data]

/-- C5 counterexample: the claim requires an unresolvable path — a missing
field included — to substitute the original `\x7b\x7bpath\x7d\x7d` text
unchanged.  With the document `doc` present but the field `nosuch`
missing at the final path segment, `value.get(part)` yields Python `None`
and the replacer inserts `str(None)`: the token becomes the text `"None"`,
not the original token text. -/
theorem claim_C5_counterexample :
    LSP.substitute_string [("doc", .dict [("uri", .str "file:///test.utlx")])] []
        "\x7b\x7bdocuments.doc.nosuch\x7d\x7d" = "None" ∧
    ("None" : String) ≠ "\x7b\x7bdocuments.doc.nosuch\x7d\x7d" := by
  constructor
  · simp [LSP.substitute_string, LSP.subChars, LSP.subCharsF, LSP.findToken,
      LSP.resolve_path, LSP.walkDoc, pySplitDot, splitDotChars, pyStrip, stripChars,
      pyIsSpace, lookupStr, pyGet, pyStr, pyRepr]
  · decide

/-- C5 as amended: an unknown document name and a non-traversable
intermediate value do substitute the original token text (rebuilt from
the stripped path), but a field missing at the *final* path segment
resolves to Python `None` — substituted as the text `"None"` — rather
than keeping the original token text. -/
theorem claim_C5_unresolvable_paths (docs vars dct : List (String × PyVal))
    (d fld path seg : String) (v : PyVal) (segs : List String) :
    (lookupStr docs d = Option.none → (∀ c ∈ d.data, c ≠ '.') →
      LSP.resolve_path docs vars ("documents." ++ d) =
        .str ("\x7b\x7b" ++ ("documents." ++ d) ++ "\x7d\x7d")) ∧
    ((∀ xs, v ≠ PyVal.dict xs) →
      LSP.walkDoc v (seg :: segs) path = .str ("\x7b\x7b" ++ path ++ "\x7d\x7d")) ∧
    (lookupStr docs d = some (.dict dct) → lookupStr dct fld = Option.none →
      (∀ c ∈ d.data, c ≠ '.') → (∀ c ∈ fld.data, c ≠ '.') →
      LSP.resolve_path docs vars ("documents." ++ d ++ "." ++ fld) = PyVal.none) ∧
    pyStr PyVal.none = "None" := by
  refine ⟨?_, ?_, ?_, ?_⟩
  · intro hl hd
    unfold LSP.resolve_path
    rw [pySplitDot_documents d hd]
    simp [hl]
  · intro hv
    cases v with
    | dict xs => exact absurd rfl (hv xs)
    | none => simp [LSP.walkDoc]
    | bool b => simp [LSP.walkDoc]
    | int n => simp [LSP.walkDoc]
    | str s => simp [LSP.walkDoc]
    | list xs => simp [LSP.walkDoc]
  · intro hl hfld hd hf
    unfold LSP.resolve_path
    rw [pySplitDot_documents_two d fld hd hf]
    simp [hl, LSP.walkDoc, pyGet, hfld]
  · simp [pyStr, pyRepr]

theorem claim_C5_unresolvable_paths_witness :
    LSP.resolve_path [("doc", .dict [("uri", .str "u")])] [] ("documents." ++ "nope") =
      .str ("\x7b\x7b" ++ ("documents." ++ "nope") ++ "\x7d\x7d") ∧
    LSP.walkDoc (.str "plain") ["field"] "documents.doc.uri.extra" =
      .str ("\x7b\x7b" ++ "documents.doc.uri.extra" ++ "\x7d\x7d") ∧
    LSP.resolve_path [("doc", .dict [("uri", .str "u")])] []
        ("documents." ++ "doc" ++ "." ++ "missing") = PyVal.none ∧
    pyStr PyVal.none = "None" :=
  ⟨(claim_C5_unresolvable_paths [("doc", .dict [("uri", .str "u")])] []
      [("uri", .str "u")] "nope" "missing" "documents.doc.uri.extra" "field"
      (.str "plain") []).1 rfl (by decide),
   (claim_C5_unresolvable_paths [("doc", .dict [("uri", .str "u")])] []
      [("uri", .str "u")] "nope" "missing" "documents.doc.uri.extra" "field"
      (.str "plain") []).2.1 (fun xs h => PyVal.noConfusion h),
   (claim_C5_unresolvable_paths [("doc", .dict [("uri", .str "u")])] []
      [("uri", .str "u")] "doc" "missing" "documents.doc.uri.extra" "field"
      (.str "plain") []).2.2.1 rfl rfl (by decide) (by decide),
   (claim_C5_unresolvable_paths [] [] [] "d" "f" "p" "s" PyVal.none []).2.2.2⟩

theorem mk_cons_ne {c : Char} {l : List Char} {t : String}
    (h : t.data.head? ≠ some c) : String.mk (c :: l) ≠ t := by
  intro he
  exact h (he ▸ rfl)

theorem dropLast_two_append (l : List Char) (a b : Char) :
    (l ++ [a, b]).dropLast.dropLast = l := by
  have h1 : l ++ [a, b] = (l ++ [a]) ++ [b] := by simp
  rw [h1, List.dropLast_concat, List.dropLast_concat]

theorem regex_ph_strip {e pat : String}
    (he : e.data = '\x7b' :: '\x7b' :: 'R' :: 'E' :: 'G' :: 'E' :: 'X' :: ':' ::
      (pat.data ++ ['\x7d', '\x7d']))
    (hws : ∀ c ∈ pat.data, pyIsSpace c = false) :
    pyStrip (stripBraces e) =
      String.mk ('R' :: 'E' :: 'G' :: 'E' :: 'X' :: ':' :: pat.data) := by
  have hstrip : stripBraces e =
      String.mk ('R' :: 'E' :: 'G' :: 'E' :: 'X' :: ':' :: pat.data) := by
    unfold stripBraces
    rw [he]
    have h2 : ('R' :: 'E' :: 'G' :: 'E' :: 'X' :: ':' :: (pat.data ++ ['\x7d', '\x7d'])
        : List Char) =
        ('R' :: 'E' :: 'G' :: 'E' :: 'X' :: ':' :: pat.data) ++ ['\x7d', '\x7d'] := by
      simp
    simp only [List.drop_succ_cons, List.drop_zero]
    rw [h2, dropLast_two_append]
  rw [hstrip]
  unfold pyStrip
  rw [stripChars_of_all]
  intro c hc
  simp only [String.mk] at hc
  simp only [List.mem_cons] at hc
  rcases hc with rfl | rfl | rfl | rfl | rfl | rfl | hc
  · rfl
  · rfl
  · rfl
  · rfl
  · rfl
  · rfl
  · exact hws c hc

theorem regex_ph_starts (e : String) (rest : List Char)
    (he : e.data = '\x7b' :: '\x7b' :: rest) :
    pyStartsWith e "\x7b\x7b" = true := by
  unfold pyStartsWith
  rw [he]
  have h2 : ("\x7b\x7b" : String).data = ['\x7b', '\x7b'] := rfl
  rw [h2]
  simp [List.isPrefixOf]

theorem regex_ph_ends {e : String} {rest : List Char}
    (he : e.data = rest ++ ['\x7d', '\x7d']) :
    pyEndsWith e "\x7d\x7d" = true := by
  unfold pyEndsWith
  rw [he]
  unfold List.isSuffixOf
  rw [List.reverse_append]
  have h2 : ("\x7d\x7d" : String).data = ['\x7d', '\x7d'] := rfl
  rw [h2]
  simp [List.isPrefixOf]

/-- C4 counterexample: the claim says a `\x7b\x7bREGEX:<pattern>\x7d\x7d`
placeholder passes iff the pattern is found *anywhere* in the actual
string, and cites both runners' `is_placeholder_match`.  The mcp-server
runner does search (third conjunct shows `v[0-9]+` is found inside
`"xv2"`, and that matcher passes), but the mcp (REST) runner uses
`re.match` — anchored at the start — and rejects the same input. -/
theorem claim_C4_counterexample :
    MCP.is_placeholder_match (.str "\x7b\x7bREGEX:v[0-9]+\x7d\x7d") (.str "xv2") = false ∧
    MCPServer.is_placeholder_match (fun _ => false)
      (.str "\x7b\x7bREGEX:v[0-9]+\x7d\x7d") (.str "xv2") = true ∧
    (match parseRx "v[0-9]+" with
     | some p => reSearchL p "xv2".data
     | Option.none => false) = true := by
  refine ⟨by decide, by decide, by decide⟩

/-- C4 as amended: for a placeholder `\x7b\x7bREGEX:pat\x7d\x7d` with a
whitespace-free pattern in the modelled regex subset, the mcp (REST)
runner's matcher passes iff `re.match` succeeds (the pattern matches a
prefix starting at position 0), while the mcp-server runner's matcher
passes iff `re.search` succeeds (the pattern is found anywhere); on
`^v[0-9]+$` the two agree — `"v2"` passes and `"version2"` fails in
both. -/
theorem claim_C4_regex (e pat s : String) (rp : RxPattern) (jv : String → Bool)
    (he : e.data = '\x7b' :: '\x7b' :: 'R' :: 'E' :: 'G' :: 'E' :: 'X' :: ':' ::
      (pat.data ++ ['\x7d', '\x7d']))
    (hws : ∀ c ∈ pat.data, pyIsSpace c = false)
    (hp : parseRx pat = some rp) :
    MCP.is_placeholder_match (.str e) (.str s) = reMatchL rp s.data ∧
    MCPServer.is_placeholder_match jv (.str e) (.str s) = reSearchL rp s.data ∧
    MCP.is_placeholder_match (.str "\x7b\x7bREGEX:^v[0-9]+$\x7d\x7d") (.str "v2") = true ∧
    MCP.is_placeholder_match (.str "\x7b\x7bREGEX:^v[0-9]+$\x7d\x7d")
      (.str "version2") = false ∧
    MCPServer.is_placeholder_match (fun _ => false)
      (.str "\x7b\x7bREGEX:^v[0-9]+$\x7d\x7d") (.str "v2") = true ∧
    MCPServer.is_placeholder_match (fun _ => false)
      (.str "\x7b\x7bREGEX:^v[0-9]+$\x7d\x7d") (.str "version2") = false := by
  have hstart := regex_ph_starts e _ he
  have hend := @regex_ph_ends e
    ('\x7b' :: '\x7b' :: 'R' :: 'E' :: 'G' :: 'E' :: 'X' :: ':' :: pat.data)
    (by rw [he]; simp)
  have hph := regex_ph_strip he hws
  have hany : (String.mk ('R' :: 'E' :: 'G' :: 'E' :: 'X' :: ':' :: pat.data) : String) ≠
      "ANY" := mk_cons_ne (by decide)
  have hts : (String.mk ('R' :: 'E' :: 'G' :: 'E' :: 'X' :: ':' :: pat.data) : String) ≠
      "TIMESTAMP" := mk_cons_ne (by decide)
  have hiso : (String.mk ('R' :: 'E' :: 'G' :: 'E' :: 'X' :: ':' :: pat.data) : String) ≠
      "ISO8601" := mk_cons_ne (by decide)
  have huuid : (String.mk ('R' :: 'E' :: 'G' :: 'E' :: 'X' :: ':' :: pat.data) : String) ≠
      "UUID" := mk_cons_ne (by decide)
  have hnum : (String.mk ('R' :: 'E' :: 'G' :: 'E' :: 'X' :: ':' :: pat.data) : String) ≠
      "NUMBER" := mk_cons_ne (by decide)
  have hstr : (String.mk ('R' :: 'E' :: 'G' :: 'E' :: 'X' :: ':' :: pat.data) : String) ≠
      "STRING" := mk_cons_ne (by decide)
  have hbool : (String.mk ('R' :: 'E' :: 'G' :: 'E' :: 'X' :: ':' :: pat.data) : String) ≠
      "BOOLEAN" := mk_cons_ne (by decide)
  have hjson : (String.mk ('R' :: 'E' :: 'G' :: 'E' :: 'X' :: ':' :: pat.data) : String) ≠
      "JSON" := mk_cons_ne (by decide)
  have hpre : pyStartsWith (String.mk ('R' :: 'E' :: 'G' :: 'E' :: 'X' :: ':' :: pat.data))
      "REGEX:" = true := by
    unfold pyStartsWith
    have h6 : ("REGEX:" : String).data = ['R', 'E', 'G', 'E', 'X', ':'] := rfl
    rw [h6]
    simp [List.isPrefixOf]
  have hdrop : List.drop 6 ('R' :: 'E' :: 'G' :: 'E' :: 'X' :: ':' :: pat.data) =
      pat.data := rfl
  have hmke : String.mk pat.data = pat := mk_data pat
  have hstrip2 : pyStrip (String.mk pat.data) = pat := by
    rw [hmke]
    exact pyStrip_of_all hws
  refine ⟨?_, ?_, by decide, by decide, by decide, by decide⟩
  · simp only [MCP.is_placeholder_match, hstart, hend, hph]
    simp [hany, hts, hiso, huuid, hnum, hstr, hbool, hpre, hdrop, hstrip2, hp]
  · simp only [MCPServer.is_placeholder_match, hstart, hend, hph]
    simp [hany, hts, hiso, huuid, hnum, hstr, hbool, hjson, hpre, hdrop, hmke, hp]

theorem claim_C4_regex_witness :
    ("\x7b\x7bREGEX:v[0-9]+\x7d\x7d" : String).data =
      '\x7b' :: '\x7b' :: 'R' :: 'E' :: 'G' :: 'E' :: 'X' :: ':' ::
        (("v[0-9]+" : String).data ++ ['\x7d', '\x7d']) ∧
    MCP.is_placeholder_match (.str "\x7b\x7bREGEX:v[0-9]+\x7d\x7d") (.str "xv2") =
      reMatchL ((parseRx "v[0-9]+").getD ⟨false, .void, false⟩) "xv2".data ∧
    MCPServer.is_placeholder_match (fun _ => false)
        (.str "\x7b\x7bREGEX:v[0-9]+\x7d\x7d") (.str "xv2") =
      reSearchL ((parseRx "v[0-9]+").getD ⟨false, .void, false⟩) "xv2".data :=
  ⟨by decide,
   (claim_C4_regex "\x7b\x7bREGEX:v[0-9]+\x7d\x7d" "v[0-9]+" "xv2"
     ((parseRx "v[0-9]+").getD ⟨false, .void, false⟩) (fun _ => false)
     (by decide) (by decide) rfl).1,
   (claim_C4_regex "\x7b\x7bREGEX:v[0-9]+\x7d\x7d" "v[0-9]+" "xv2"
     ((parseRx "v[0-9]+").getD ⟨false, .void, false⟩) (fun _ => false)
     (by decide) (by decide) rfl).2.1⟩
